import Mathlib

/-!
Verification of the NBA analytics query pipeline.

This file gives a shallow embedding, in Lean 4, of the correctness-critical
parts of the backend: the TTL cache (app/core/cache.py), the stat-name
resolver and the NBA API client (app/services/nba/nba_api_client.py), the
query processor (app/services/llm/query_processor.py), the local dataset
store (app/services/storage/local_storage.py) and the settings objects they
consult (app/core/settings.py).

Python strings that are manipulated structurally (cache keys, file names,
table names) are modelled as `List Char` (called `Str` below); strings that
are only compared or transformed character-wise (stat names, player names)
are Lean `String`s.  Python `None` is modelled with `Option`; a Python
exception is an `Except PyErr` error value.  Time is an explicit `Nat`
parameter (`time.time()` at each call); only the ordering of instants
matters to the code under study.  DataFrames are modelled as a column list
plus a list of rows, each row an association list from column name to cell.
-/

namespace NBAApp

/-- Characters of a Python string used as a structural key (cache keys,
file names, table names). -/
abbrev Str := List Char

/-- A cell of a pandas DataFrame: the repository only distinguishes string
cells (names, seasons) from numeric cells (stat values). -/
inductive Cell where
  | str (s : String)
  | int (n : Int)
deriving DecidableEq, Repr

/-- A DataFrame row: association list from column name to cell value. -/
abbrev Row := List (String × Cell)

/-- A pandas DataFrame: its column labels and its rows. -/
structure DataFrame where
  cols : List String
  rows : List Row
deriving DecidableEq, Repr

/-- `pd.DataFrame()`: the empty frame. -/
def emptyDF : DataFrame := ⟨[], []⟩

/-- `df.empty` in pandas: true when either axis has length zero. -/
def DataFrame.isEmptyDF (df : DataFrame) : Bool :=
  df.rows.isEmpty || df.cols.isEmpty

/-- `row[col]`: first binding of a column in a row, if any. -/
def getCell (r : Row) (c : String) : Option Cell :=
  (r.find? (fun p => p.1 == c)).map (·.2)

/-- A dataset as produced by the collector and handled by storage:
a dict from table name to DataFrame (`Dict[str, pd.DataFrame]`). -/
abbrev Dataset := List (Str × DataFrame)

/-- Dict lookup on a dataset (`dataset.get(name)` / `dataset[name]`). -/
def lookupDF (ds : Dataset) (name : Str) : Option DataFrame :=
  (ds.find? (fun p => p.1 == name)).map (·.2)

/-- ASCII lower-casing of one character (`str.lower` per character; the
repository's stat and entity names are ASCII). -/
def lowerChar (c : Char) : Char :=
  if 'A' ≤ c ∧ c ≤ 'Z' then Char.ofNat (c.toNat + 32) else c

/-- ASCII upper-casing of one character (`str.upper` per character). -/
def upperChar (c : Char) : Char :=
  if 'a' ≤ c ∧ c ≤ 'z' then Char.ofNat (c.toNat - 32) else c

/-- `str.lower()`. -/
def pyLower (s : String) : String := ⟨s.data.map lowerChar⟩

/-- `str.upper()`. -/
def pyUpper (s : String) : String := ⟨s.data.map upperChar⟩

/-- A whitespace character as `str.strip()` sees it. -/
def isSpaceChar (c : Char) : Bool :=
  c = ' ' || c = '\t' || c = '\n' || c = '\r'

/-- `str.strip()`: drop whitespace from both ends. -/
def pyStrip (s : String) : String :=
  ⟨((s.data.dropWhile isSpaceChar).reverse.dropWhile isSpaceChar).reverse⟩

/-- The Python exceptions that appear in the code paths under study. -/
inductive PyErr where
  /-- `json.JSONDecodeError` — the only exception `_analyze_query` catches. -/
  | jsonDecodeError
  /-- a pydantic/langchain validation error from structured output. -/
  | validationError
  /-- `AttributeError` — raised on access to an attribute an object lacks. -/
  | attributeError
  /-- `TypeError` — e.g. `len(None)`. -/
  | typeError
  /-- any other exception. -/
  | otherError
deriving DecidableEq, Repr

/-! ## TTL cache (app/core/cache.py)

`Cache._store` is a `Dict[str, Tuple[Any, Optional[float]]]` mapping a key
to a value and an optional absolute expiry instant.  `set` computes
`expiry = None if ttl is None else time.time() + ttl` and assigns the dict
slot (replacing any previous binding); `get` looks the key up, deletes it
and returns the default when `time.time() > expiry`, and otherwise returns
the stored value; `has` is `get(key, default=None) is not None`; `delete`
removes the binding.  The store is modelled as an association list whose
first binding for a key is the authoritative one; `set` drops shadowed
bindings so that deletion semantics match the Python dict.  The value type
is a parameter; the repository stores datasets, and Python `None` is
represented by instantiating the parameter at an `Option` type. -/

/-- The state of `Cache`: bindings key ↦ (value, optional absolute expiry). -/
structure Cache (α : Type) where
  store : List (Str × α × Option Nat)
deriving DecidableEq, Repr

/-- First binding of `key` in the store (Python dict lookup). -/
def findEntry (l : List (Str × α × Option Nat)) (key : Str) :
    Option (α × Option Nat) :=
  (l.find? (fun e => e.1 == key)).map (·.2)

/-- `Cache.set`: bind `key` to `value` with expiry `now + ttl` (or none). -/
def Cache.set (c : Cache α) (key : Str) (value : α) (ttl : Option Nat)
    (now : Nat) : Cache α :=
  ⟨(key, value, ttl.map (fun t => now + t)) :: c.store.filter (fun e => e.1 ≠ key)⟩

/-- `Cache.get`: return the stored value, or `default` when the key is
absent or expired; an expired key is deleted (lazy eviction). -/
def Cache.get (c : Cache α) (key : Str) (default : α) (now : Nat) :
    Cache α × α :=
  match findEntry c.store key with
  | none => (c, default)
  | some (v, none) => (c, v)
  | some (v, some e) =>
      if now > e then (⟨c.store.filter (fun en => en.1 ≠ key)⟩, default)
      else (c, v)

/-- `Cache.has`: `self.get(key, default=None) is not None`.  The value type
is an `Option` because the Python cache may store `None` itself. -/
def Cache.hasKey (c : Cache (Option β)) (key : Str) (now : Nat) :
    Cache (Option β) × Bool :=
  let p := c.get key none now
  (p.1, p.2.isSome)

/-- `Cache.delete`: remove the binding of `key`, if any. -/
def Cache.del (c : Cache α) (key : Str) : Cache α :=
  ⟨c.store.filter (fun e => e.1 ≠ key)⟩

/-! ## Stat name resolver (NBAApiClient.__resolve_stat_column)

`STAT_MAP` and the no-suffix set are transcribed verbatim from
app/services/nba/nba_api_client.py.  The resolver lowers and strips the
input, maps it through `STAT_MAP` (falling back to the upper-cased input),
returns no-suffix columns unchanged, and otherwise appends `_PER_GAME`
when `stats_type == "per_game"`, `_TOTAL` when `stats_type == "total"`,
and `_PER_GAME` (after logging a warning) for any other value.  The
`stats_type` argument is an `Option String` because callers can pass the
Python `None` stored in the analysis dict. -/

def STAT_MAP : List (String × String) := [
  ("minutes", "MIN"),
  ("points", "PTS"),
  ("rebounds", "REB"),
  ("assists", "AST"),
  ("blocks", "BLK"),
  ("steals", "STL"),
  ("turnovers", "TOV"),
  ("field goals made", "FGM"),
  ("field goals attempted", "FGA"),
  ("three pointers made", "FG3M"),
  ("three pointers attempted", "FG3A"),
  ("free throws made", "FTM"),
  ("free throws attempted", "FTA"),
  ("plus minus", "PLUS_MINUS"),
  ("wins", "W"),
  ("losses", "L"),
  ("win percentage", "W_PCT"),
  ("games played", "GP"),
  ("field goal percentage", "FG_PCT"),
  ("three point percentage", "FG3_PCT"),
  ("free throw percentage", "FT_PCT"),
  ("double-doubles", "DD2"),
  ("triple-doubles", "TD3"),
  ("fantasy points", "NBA_FANTASY_PTS"),
  ("WNBA fantasy points", "WNBA_FANTASY_PTS"),
  ("age", "AGE"),
  ("nickname", "NICKNAME"),
  ("team abbreviation", "TEAM_ABBREVIATION"),
  ("team count", "TEAM_COUNT"),
  ("personal fouls drawn", "PFD"),
  ("personal fouls", "PF"),
  ("offensive rebounds", "OREB"),
  ("defensive rebounds", "DREB")]

/-- The `no_suffix` set inside `__resolve_stat_column`. -/
def NO_SUFFIX : List String := [
  "W", "L", "W_PCT", "GP", "FG_PCT", "FG3_PCT", "FT_PCT",
  "AGE", "NICKNAME", "TEAM_ABBREVIATION", "TEAM_COUNT",
  "DD2", "TD3"]

/-- `NBAApiClient.__resolve_stat_column`. -/
def resolveStatColumn (stat : String) (statsType : Option String) : String :=
  let s := pyStrip (pyLower stat)
  let column := ((STAT_MAP.find? (fun p => p.1 == s)).map (·.2)).getD (pyUpper s)
  if NO_SUFFIX.contains column then column
  else if statsType == some "per_game" then column ++ "_PER_GAME"
  else if statsType == some "total" then column ++ "_TOTAL"
  else column ++ "_PER_GAME"

/-- The suffixes the data collector attaches when merging the per-game and
totals frames (`pd.merge(..., suffixes=('_PER_GAME', '_TOTALS'))` in
app/services/nba/nba_data_collector.py): the persisted player table has
columns ending in `_PER_GAME` and `_TOTALS`. -/
def collectorTotalsSuffix : String := "_TOTALS"

/-- The `stats_type` vocabulary the analyzer declares in its structured
output schema ("per_game, totals, advanced, or null" in the
`QueryAnalysis` pydantic model and the analysis system prompt of
app/services/llm/query_processor.py). -/
def statsTypeVocab : List String := ["per_game", "totals", "advanced"]

/-! ## Settings (app/core/settings.py)

The `nba_settings` object consulted by `NBAApiClient` is an instance of
`NBASettings` from app/core/settings.py, which defines `DEFAULT_SEASON`,
`DEFAULT_SEASONS_LIST` and a few static methods — and no attribute named
`PLAYER_STATS_DF` or `TEAM_STATS_DF`.  A Python attribute access on a
name the object lacks raises `AttributeError`, so those two accesses are
modelled as raising. -/

structure NBASettingsObj where
  DEFAULT_SEASON : String
  DEFAULT_SEASONS_LIST : List String

/-- `nba_settings.PLAYER_STATS_DF`: the attribute does not exist on
`NBASettings`, so the access raises `AttributeError`. -/
def NBASettingsObj.PLAYER_STATS_DF (_ : NBASettingsObj) : Except PyErr Str :=
  .error .attributeError

/-- `nba_settings.TEAM_STATS_DF`: the attribute does not exist on
`NBASettings`, so the access raises `AttributeError`. -/
def NBASettingsObj.TEAM_STATS_DF (_ : NBASettingsObj) : Except PyErr Str :=
  .error .attributeError

/-! ## NBA API client (app/services/nba/nba_api_client.py)

Client state is the instance's `cached_data` dict plus the process-wide
cache.  The behaviour of `storage.load` during one call is supplied as an
`Except PyErr Dataset` argument (what the call would return, or the
exception it would raise); `storage.save`'s boolean outcome likewise.
A client method returns the new state and either a raised exception or
its Python return value (`Option DataFrame`, since `get_top_players`
returns `None`). -/

structure ClientState where
  cachedData : Dataset
  cache : Cache (Option Dataset)
deriving DecidableEq, Repr

/-- The cache key `f"dataset:{prefix}"` used by `collect_and_store_dataset`. -/
def dsKey (pfx : Str) : Str := "dataset:".toList ++ pfx

/-- The cache key `f"dataset:{prefix}:latest"` read and written by `load_data`. -/
def dsLatestKey (pfx : Str) : Str := "dataset:".toList ++ pfx ++ ":latest".toList

/-- The cache key `f"dataset:{prefix}:all"` read and written by `load_data`. -/
def dsAllKey (pfx : Str) : Str := "dataset:".toList ++ pfx ++ ":all".toList

/-- The default `prefix="nba-data"` of the client methods. -/
def defaultPfx : Str := "nba-data".toList

/-- `NBAApiClient.load_data`: consult the cache under the
latest/all key; a cached *truthy* dataset (non-`None` and non-empty) is a
hit; otherwise load from storage, cache the result with no TTL, and set
`cached_data`.  Any exception is caught and an empty dict returned. -/
def loadData (st : ClientState) (storageLoad : Except PyErr Dataset)
    (pfx : Str) (latestOnly : Bool) (now : Nat) : ClientState × Dataset :=
  let key := if latestOnly then dsLatestKey pfx else dsAllKey pfx
  let p := st.cache.get key none now
  let hit : Option Dataset :=
    match p.2 with
    | some ds => if ds.isEmpty then none else some ds
    | none => none
  match hit with
  | some ds => ({ cachedData := ds, cache := p.1 }, ds)
  | none =>
    match storageLoad with
    | .error _ => ({ st with cache := p.1 }, [])
    | .ok ds => ({ cachedData := ds, cache := p.1.set key (some ds) none now }, ds)

/-- `NBAApiClient.get_player_stats`.  After ensuring a dataset is loaded,
the source evaluates `nba_settings.PLAYER_STATS_DF`, which raises; the
rest of the body (empty/column checks and the case-insensitive
name-and-season filter) is transcribed for completeness but is
unreachable. -/
def getPlayerStats (settings : NBASettingsObj) (st : ClientState)
    (storageLoad : Except PyErr Dataset) (players seasons : List String)
    (now : Nat) : ClientState × Except PyErr (Option DataFrame) :=
  let st1 := if st.cachedData.isEmpty then (loadData st storageLoad defaultPfx true now).1 else st
  match settings.PLAYER_STATS_DF with
  | .error e => (st1, .error e)
  | .ok key =>
    let player_df := (lookupDF st1.cachedData key).getD emptyDF
    if player_df.isEmptyDF then (st1, .ok (some emptyDF))
    else if ¬ player_df.cols.contains "PLAYER_NAME" then (st1, .ok (some emptyDF))
    else if ¬ player_df.cols.contains "season" then (st1, .ok (some emptyDF))
    else
      let lowered := players.map pyLower
      let filtered := player_df.rows.filter (fun r =>
        (match getCell r "PLAYER_NAME" with
         | some (.str v) => lowered.contains (pyLower v)
         | _ => false)
        &&
        (match getCell r "season" with
         | some (.str v) => seasons.contains v
         | _ => false))
      (st1, .ok (some { cols := player_df.cols, rows := filtered }))

/-- `NBAApiClient.get_team_stats`: same shape as `get_player_stats` with
the team table and `TEAM_NAME`; the `nba_settings.TEAM_STATS_DF` access
raises. -/
def getTeamStats (settings : NBASettingsObj) (st : ClientState)
    (storageLoad : Except PyErr Dataset) (teams seasons : List String)
    (now : Nat) : ClientState × Except PyErr (Option DataFrame) :=
  let st1 := if st.cachedData.isEmpty then (loadData st storageLoad defaultPfx true now).1 else st
  match settings.TEAM_STATS_DF with
  | .error e => (st1, .error e)
  | .ok key =>
    let team_df := (lookupDF st1.cachedData key).getD emptyDF
    if team_df.isEmptyDF then (st1, .ok (some emptyDF))
    else if ¬ team_df.cols.contains "TEAM_NAME" then (st1, .ok (some emptyDF))
    else if ¬ team_df.cols.contains "season" then (st1, .ok (some emptyDF))
    else
      let lowered := teams.map pyLower
      let filtered := team_df.rows.filter (fun r =>
        (match getCell r "TEAM_NAME" with
         | some (.str v) => lowered.contains (pyLower v)
         | _ => false)
        &&
        (match getCell r "season" with
         | some (.str v) => seasons.contains v
         | _ => false))
      (st1, .ok (some { cols := team_df.cols, rows := filtered }))

/-- The numeric value of a stat cell (used for descending sort). -/
def statValInt (c : String) (r : Row) : Int :=
  match getCell r c with
  | some (.int n) => n
  | _ => 0

/-- `df.sort_values(by=stat, ascending=False)` on the stat column. -/
def sortByColDesc (c : String) (rows : List Row) : List Row :=
  rows.mergeSort (fun a b => statValInt c a ≥ statValInt c b)

/-- Accumulator pass of `groupby("season").head(n)`: keep a row when
fewer than `n` earlier rows carried the same season cell. -/
def groupHeadAux (n : Nat) (seen : List (Option Cell)) : List Row → List Row
  | [] => []
  | r :: rest =>
      let k := getCell r "season"
      if seen.count k < n then r :: groupHeadAux n (k :: seen) rest
      else groupHeadAux n (k :: seen) rest

/-- `df.groupby("season").head(n)`: the first `n` rows of each season
group, in the order of the incoming frame. -/
def groupHeadBySeason (n : Nat) (rows : List Row) : List Row :=
  groupHeadAux n [] rows

/-- `df[[c1, …]]`: column projection of a row. -/
def selectCols (cs : List String) (r : Row) : Row :=
  cs.filterMap (fun c => (getCell r c).map (fun v => (c, v)))

/-- `NBAApiClient.get_top_teams`.  After the load check the source reads
`nba_settings.TEAM_STATS_DF`, which raises `AttributeError`; the rest of
the body is transcribed for completeness but is unreachable.  Note the
source resolves the stat column with the literal `stats_type="per_game"`,
ignoring its `stats_type` argument. -/
def getTopTeams (settings : NBASettingsObj) (st : ClientState)
    (storageLoad : Except PyErr Dataset) (seasons : List String)
    (top_n : Int) (stat : String) (statsType : Option String)
    (now : Nat) : ClientState × Except PyErr (Option DataFrame) :=
  let _ := statsType
  let st1 := if st.cachedData.isEmpty then (loadData st storageLoad defaultPfx true now).1 else st
  match settings.TEAM_STATS_DF with
  | .error e => (st1, .error e)
  | .ok key =>
    let team_df := (lookupDF st1.cachedData key).getD emptyDF
    if team_df.isEmptyDF then (st1, .ok (some emptyDF))
    else
      let stat1 := resolveStatColumn stat (some "per_game")
      if ¬ team_df.cols.contains stat1 then (st1, .ok (some emptyDF))
      else if ¬ team_df.cols.contains "season" then (st1, .ok (some emptyDF))
      else
        let filtered := team_df.rows.filter (fun r =>
          match getCell r "season" with
          | some (.str v) => seasons.contains v
          | _ => false)
        if filtered.isEmpty then (st1, .ok (some emptyDF))
        else
          let sel := filtered.map (selectCols ["TEAM_NAME", "season", stat1])
          let sorted := sortByColDesc stat1 sel
          let top := groupHeadBySeason top_n.toNat sorted
          (st1, .ok (some { cols := ["TEAM_NAME", "season", stat1], rows := top }))

/-- `NBAApiClient.get_top_players`: the body is a bare `pass`, so the call
does nothing and returns the Python `None`, whatever its arguments. -/
def getTopPlayers (st : ClientState) (seasons : List String) (top_n : Int)
    (stat : String) (statsType : Option String) :
    ClientState × Except PyErr (Option DataFrame) :=
  let _ := (seasons, top_n, stat, statsType)
  (st, .ok none)

/-- `NBAApiClient.get_top_performers`: dispatch on `entity`. -/
def getTopPerformers (settings : NBASettingsObj) (st : ClientState)
    (storageLoad : Except PyErr Dataset) (seasons : List String)
    (top_n : Int) (stat : String) (entity : String)
    (statsType : Option String) (now : Nat) :
    ClientState × Except PyErr (Option DataFrame) :=
  if entity == "player" then getTopPlayers st seasons top_n stat statsType
  else if entity == "team" then
    getTopTeams settings st storageLoad seasons top_n stat statsType now
  else (st, .ok (some emptyDF))

/-- `NBAApiClient.collect_and_store_dataset`: with `collected` the
collector's dataset and `saveResult` the boolean returned by
`storage.save`, cache the dataset under `f"dataset:{prefix}"` (no TTL)
exactly when the save succeeded. -/
def collectAndStoreDataset (st : ClientState) (collected : Dataset)
    (saveResult : Bool) (pfx : Str) (now : Nat) : ClientState × Bool :=
  if collected.isEmpty then (st, false)
  else if saveResult then
    ({ st with cache := st.cache.set (dsKey pfx) (some collected) none now }, true)
  else (st, false)

/-! ## Query processor (app/services/llm/query_processor.py)

`_analyze_query` asks the LLM for a structured `QueryAnalysis` and turns it
into a plain dict with `model_dump()`.  The LLM interaction is modelled by
its outcome: either a validated `QueryAnalysisR` value or the exception the
`structured_llm.invoke`/`model_dump` sequence raised.  The `try` block
catches `json.JSONDecodeError` only; every other exception (in particular
a pydantic validation error for output that does not conform to the
schema) propagates.

The analysis dict is modelled field by field.  The four keys that are
absent from the parse-failure fallback dict (`stats_type`,
`comparison_type`, `top_n`, `entity`) are wrapped in an outer `Option`
(`none` = key absent, so `dict.get` falls back to its default); for
`stats_type`/`comparison_type` the inner `Option` is the Python `None`
the pydantic fields default to. -/

/-- The validated `QueryAnalysis` pydantic value (after `model_dump`). -/
structure QueryAnalysisR where
  intent : String
  players : List String
  teams : List String
  seasons : List String
  stats : List String
  stats_type : Option String
  timeframe : String
  comparison_type : Option String
  top_n : Int
  entity : String
deriving DecidableEq, Repr

/-- The dict `_analyze_query` hands downstream.  Outer `Option` on the
last four fields records whether the key is present at all. -/
structure AnalysisDict where
  intent : String
  players : List String
  teams : List String
  seasons : List String
  stats : List String
  timeframe : String
  stats_type : Option (Option String)
  comparison_type : Option (Option String)
  top_n : Option Int
  entity : Option String
deriving DecidableEq, Repr

/-- `analysis.model_dump()`: every key present. -/
def QueryAnalysisR.toDict (qa : QueryAnalysisR) : AnalysisDict :=
  { intent := qa.intent, players := qa.players, teams := qa.teams,
    seasons := qa.seasons, stats := qa.stats, timeframe := qa.timeframe,
    stats_type := some qa.stats_type,
    comparison_type := some qa.comparison_type,
    top_n := some qa.top_n, entity := some qa.entity }

/-- The fixed fallback dict returned when `json.JSONDecodeError` is
caught: only the six listed keys are present. -/
def fallbackAnalysis (defaultSeason : String) : AnalysisDict :=
  { intent := "general", players := [], teams := [],
    seasons := [defaultSeason], stats := [], timeframe := "season",
    stats_type := none, comparison_type := none, top_n := none,
    entity := none }

/-- `QueryProcessor._analyze_query`: on a successful invoke, dump the
model and substitute `[DEFAULT_SEASON]` for an empty (falsy) seasons
list; on `json.JSONDecodeError`, return the fallback dict; any other
exception propagates. -/
def analyzeQuery (defaultSeason : String)
    (invokeResult : Except PyErr QueryAnalysisR) :
    Except PyErr AnalysisDict :=
  match invokeResult with
  | .ok qa =>
    let d := qa.toDict
    .ok (if d.seasons.isEmpty then { d with seasons := [defaultSeason] } else d)
  | .error .jsonDecodeError => .ok (fallbackAnalysis defaultSeason)
  | .error e => .error e

/-- `QueryProcessor._fetch_relevant_data`: read the analysis dict with
`dict.get` defaults, dispatch on the intent string, and absorb any
exception (or a `None` result, whose `len()` raises `TypeError`) into an
empty DataFrame. -/
def fetchRelevantData (settings : NBASettingsObj) (st : ClientState)
    (storageLoad : Except PyErr Dataset) (a : AnalysisDict) (now : Nat) :
    ClientState × DataFrame :=
  let players := a.players
  let teams := a.teams
  let seasons := a.seasons
  let top_n := a.top_n.getD 10
  let stats := a.stats
  let entity := a.entity.getD "player"
  let statsType : Option String :=
    match a.stats_type with
    | none => some "per_game"
    | some v => v
  let step : ClientState × Except PyErr (Option DataFrame) :=
    if a.intent == "player_comparison" || a.intent == "player_stats" then
      getPlayerStats settings st storageLoad players seasons now
    else if a.intent == "team_comparison" || a.intent == "team_stats" then
      getTeamStats settings st storageLoad teams seasons now
    else if a.intent == "top_performers" then
      let stat := match stats with | [] => "points" | s :: _ => s
      getTopPerformers settings st storageLoad seasons top_n stat entity statsType now
    else (st, .ok (some emptyDF))
  match step.2 with
  | .ok (some df) => (step.1, df)
  | .ok none => (step.1, emptyDF)
  | .error _ => (step.1, emptyDF)

/-- `QueryProcessor._generate_answer`: an empty frame short-circuits to
the fixed "no data" sentinel without calling the LLM; otherwise the
LLM's outcome is returned, with any exception absorbed into the fixed
apology sentinel. -/
def generateAnswer (genResult : Except PyErr String) (a : AnalysisDict)
    (data : DataFrame) : String :=
  let _ := a
  if data.rows.isEmpty then
    "No relevant NBA data found to answer your question."
  else
    match genResult with
    | .ok s => s
    | .error _ => "Sorry, I encountered an error while generating the answer."

/-- One run's worth of external behaviour: what the analysis invoke, the
storage load and the generation invoke would each produce. -/
structure RunBehavior where
  analysisResult : Except PyErr QueryAnalysisR
  storageLoad : Except PyErr Dataset
  generationResult : Except PyErr String
deriving Repr

/-- `QueryProcessor.query`: analyze, fetch, generate.  Only
`_analyze_query` can let an exception escape. -/
def queryRun (settings : NBASettingsObj) (st : ClientState)
    (b : RunBehavior) (now : Nat) : Except PyErr (ClientState × String) :=
  match analyzeQuery settings.DEFAULT_SEASON b.analysisResult with
  | .error e => .error e
  | .ok a =>
    let p := fetchRelevantData settings st b.storageLoad a now
    .ok (p.1, generateAnswer b.generationResult a p.2)

/-! ## Local dataset store (app/services/storage/local_storage.py)

The filesystem is modelled as a list of files, each with a directory, a
file name, the tabular content written to it, and a modification time.
`save` writes, for every non-empty table, a `{name}_{timestamp}.csv` and
a `{name}_{timestamp}.json` artifact under `data/{prefix}` — one shared
timestamp string per call — overwriting any file at the same path.
`load` lists the `.csv` files of the directory, groups them by the text
preceding the first underscore of the file name (after stripping every
`.csv` occurrence, as `filename.replace('.csv','')` does), and per group
keeps the most-recently-modified file (`latest_only=True`, Python `max`
returning the first maximal element) or the first listed file.  The
csv serialisation round-trip is modelled as the identity on the frame. -/

structure FSFile where
  dir : Str
  name : Str
  content : DataFrame
  mtime : Nat
deriving DecidableEq, Repr

abbrev FS := List FSFile

/-- Write (or overwrite) one file. -/
def writeFile (fs : FS) (dir name : Str) (content : DataFrame) (mtime : Nat) : FS :=
  fs.filter (fun f => ¬(f.dir = dir ∧ f.name = name)) ++ [⟨dir, name, content, mtime⟩]

/-- `os.path.join(self.base_directory, prefix)` with the default base
directory `"data"`. -/
def dirOf (pfx : Str) : Str := "data/".toList ++ pfx

/-- The characters of ".csv". -/
def csvExt : Str := ['.', 'c', 's', 'v']

/-- The characters of ".json". -/
def jsonExt : Str := ['.', 'j', 's', 'o', 'n']

/-- `f"{name}_{timestamp}.csv"`. -/
def csvName (name ts : Str) : Str := name ++ '_' :: (ts ++ csvExt)

/-- `f"{name}_{timestamp}.json"`. -/
def jsonName (name ts : Str) : Str := name ++ '_' :: (ts ++ jsonExt)

/-- The body of the save loop: skip empty frames, write both encodings. -/
def saveFiles (dir ts : Str) (now : Nat) : Dataset → FS → FS
  | [], fs => fs
  | (nm, df) :: rest, fs =>
    if df.isEmptyDF then saveFiles dir ts now rest fs
    else saveFiles dir ts now rest
      (writeFile (writeFile fs dir (csvName nm ts) df now) dir (jsonName nm ts) df now)

/-- `LocalStorage.save`: returns the new filesystem and `True` (the
`except` branch returning `False` covers only backend-level failures,
which the filesystem model does not produce). -/
def saveLocal (fs : FS) (ds : Dataset) (pfx ts : Str) (now : Nat) : FS × Bool :=
  (saveFiles (dirOf pfx) ts now ds fs, true)

/-- `filename.endswith(".csv")`. -/
def endsWithCsv (name : Str) : Bool := name.reverse.take 4 == ['v', 's', 'c', '.']

/-- `filename.replace('.csv', '')`: drop every occurrence of `.csv`. -/
def replaceCsv : Str → Str
  | '.' :: 'c' :: 's' :: 'v' :: rest => replaceCsv rest
  | c :: rest => c :: replaceCsv rest
  | [] => []

/-- `filename.replace('.csv', '').split('_')[0]`: the inferred table
name of a snapshot artifact. -/
def inferredName (fname : Str) : Str :=
  (replaceCsv fname).takeWhile (fun c => c ≠ '_')

/-- Accumulator pass of first-occurrence deduplication. -/
def dedupFirstAux (seen : List Str) : List Str → List Str
  | [] => []
  | x :: xs =>
    if x ∈ seen then dedupFirstAux seen xs
    else x :: dedupFirstAux (x :: seen) xs

/-- First-occurrence deduplication: the iteration order of the
`csv_files` dict keyed by inferred name. -/
def dedupFirst (l : List Str) : List Str := dedupFirstAux [] l

/-- `max(files, key=lambda x: x['modified'])`: Python `max` keeps the
first element whose key is maximal. -/
def pickLatest (f : FSFile) (rest : List FSFile) : FSFile :=
  rest.foldl (fun best g => if g.mtime > best.mtime then g else best) f

/-- The artifact chosen for one table-name group: the most recently
modified file when `latest_only`, else the first listed (`files[0]`).
An empty group cannot arise (groups come from listed files). -/
def chooseSnapshot (latestOnly : Bool) (grp : List FSFile) : DataFrame :=
  match grp with
  | [] => emptyDF
  | g :: gs => if latestOnly then (pickLatest g gs).content else g.content

/-- `LocalStorage.load`. -/
def loadLocal (fs : FS) (pfx : Str) (latestOnly : Bool) : Dataset :=
  let dir := dirOf pfx
  let csvs := fs.filter (fun f => f.dir == dir && endsWithCsv f.name)
  let names := dedupFirst (csvs.map (fun f => inferredName f.name))
  names.map (fun nm =>
    (nm, chooseSnapshot latestOnly (csvs.filter (fun f => inferredName f.name == nm))))

/-! ## Concrete fixtures used by evaluation theorems -/

/-- A settings instance with the hardcoded defaults of
app/services/nba/nba_settings.py. -/
def demoSettings : NBASettingsObj :=
  ⟨"2023-24", ["2021-22", "2022-23", "2023-24"]⟩

/-- A small player-stats table: two players of season 2023-24 with
per-game points. -/
def demoTbl : DataFrame :=
  ⟨["PLAYER_NAME", "season", "PTS_PER_GAME"],
   [[("PLAYER_NAME", .str "A"), ("season", .str "2023-24"), ("PTS_PER_GAME", .int 30)],
    [("PLAYER_NAME", .str "B"), ("season", .str "2023-24"), ("PTS_PER_GAME", .int 25)]]⟩

/-- A client whose `cached_data` already holds the player table under the
name the collector uses (`player_stats`), with an empty process cache. -/
def demoState : ClientState := ⟨[("player_stats".toList, demoTbl)], ⟨[]⟩⟩

/-- The analysis dict of a top-performers question over the fixture data
(intent top_performers, stat "points", seasons ["2023-24"], top_n 2,
entity player). -/
def topPerfAnalysis : AnalysisDict :=
  (QueryAnalysisR.toDict
    ⟨"top_performers", [], [], ["2023-24"], ["points"], some "per_game",
     "season", none, 2, "player"⟩)

/-- The analysis dict of a player-stats question matching the fixture row
"A" case-insensitively. -/
def playerStatsAnalysis : AnalysisDict :=
  (QueryAnalysisR.toDict
    ⟨"player_stats", ["a"], [], ["2023-24"], [], some "per_game",
     "season", none, 10, "player"⟩)

/-- The name-and-season filter predicate of `get_player_stats`, applied
to the fixture query (players ["a"], seasons ["2023-24"]). -/
def demoPlayerPred (r : Row) : Bool :=
  (match getCell r "PLAYER_NAME" with
   | some (.str v) => (["a"].map pyLower).contains (pyLower v)
   | _ => false)
  &&
  (match getCell r "season" with
   | some (.str v) => ["2023-24"].contains v
   | _ => false)

/-! ## Supporting lemmas -/

/-! Basic cache lemmas. -/

theorem find?_filter_ne {α : Type} {l : List (Str × α × Option Nat)}
    {k k' : Str} (h : k' ≠ k) :
    (l.filter (fun e => e.1 ≠ k)).find? (fun e => e.1 == k')
      = l.find? (fun e => e.1 == k') := by
  rw [List.find?_filter]
  congr 1
  funext a
  by_cases ha : a.1 = k'
  · have hk : a.1 ≠ k := fun hk => h (ha ▸ hk)
    simp [ha, hk]
    exact h
  · simp [ha]

theorem cache_get_set_self (c : Cache α) (key : Str) (v : α) (now t' : Nat)
    (d : α) :
    ((c.set key v none now).get key d t').2 = v := by
  simp [Cache.set, Cache.get, findEntry, List.find?]

theorem cache_get_set_self_ttl (c : Cache α) (key : Str) (v : α)
    (ttl now t' : Nat) (d : α) :
    ((c.set key v (some ttl) now).get key d t').2 =
      if t' > now + ttl then d else v := by
  by_cases h : t' > now + ttl <;>
    simp [Cache.set, Cache.get, findEntry, List.find?, h]

theorem cache_get_set_ne (c : Cache α) {key k' : Str} (hne : k' ≠ key)
    (v : α) (ttl : Option Nat) (now t' : Nat) (d : α) :
    ((c.set key v ttl now).get k' d t').2 = (c.get k' d t').2 := by
  have hb : (key == k') = false := by
    simp only [beq_eq_false_iff_ne]
    exact fun hk => hne hk.symm
  have hfe : findEntry ((c.set key v ttl now)).store k' = findEntry c.store k' := by
    unfold Cache.set
    simp only [findEntry, List.find?_cons, hb]
    rw [find?_filter_ne hne]
  unfold Cache.get
  rw [hfe]
  cases hf : findEntry c.store k' with
  | none => simp
  | some ev =>
    rcases ev with ⟨w, texp⟩
    cases texp with
    | none => simp
    | some e => by_cases ht : t' > e <;> simp [ht]


theorem findEntry_filter_self (l : List (Str × α × Option Nat)) (key : Str) :
    findEntry (l.filter (fun e => e.1 ≠ key)) key = none := by
  unfold findEntry
  have h : (l.filter (fun e => e.1 ≠ key)).find? (fun e => e.1 == key) = none := by
    rw [List.find?_eq_none]
    intro x hx
    have hx' := List.of_mem_filter hx
    simp only [decide_eq_true_eq] at hx'
    simp [hx']
  rw [h]
  rfl

theorem hasKey_of_findEntry_none {β : Type} (c : Cache (Option β)) (key : Str)
    (t2 : Nat) (h : findEntry c.store key = none) :
    (c.hasKey key t2).2 = false := by
  unfold Cache.hasKey Cache.get
  rw [h]
  simp

theorem cache_expired_store {β : Type} (c : Cache (Option β)) (key : Str) (v : β)
    (t t0 t1 : Nat) (d : Option β) (hgt : t1 > t0 + t) :
    (((c.set key (some v) (some t) t0)).get key d t1).1.store
      = (c.set key (some v) (some t) t0).store.filter (fun en => en.1 ≠ key) := by
  unfold Cache.set Cache.get
  simp [findEntry, List.find?_cons, hgt]

theorem loadData_hit (st : ClientState) (sl : Except PyErr Dataset)
    (pfx : Str) (now : Nat) (dprev : Dataset)
    (hget : (st.cache.get (dsLatestKey pfx) none now).2 = some dprev)
    (hne : dprev.isEmpty = false) :
    loadData st sl pfx true now
      = ({ cachedData := dprev,
           cache := (st.cache.get (dsLatestKey pfx) none now).1 }, dprev) := by
  simp [loadData, hget, hne]

theorem loadData_missEmpty (st : ClientState) (ds' : Dataset)
    (pfx : Str) (now : Nat)
    (hget : (st.cache.get (dsLatestKey pfx) none now).2 = some []) :
    loadData st (.ok ds') pfx true now
      = ({ cachedData := ds',
           cache := (st.cache.get (dsLatestKey pfx) none now).1.set
             (dsLatestKey pfx) (some ds') none now }, ds') := by
  simp [loadData, hget]

theorem append_cons_ne (l : List Char) (c : Char) (cs : List Char) :
    l ++ c :: cs ≠ l := by
  intro h
  have := congrArg List.length h
  simp only [List.length_append, List.length_cons] at this
  omega

theorem dsLatestKey_ne (pfx : Str) : dsLatestKey pfx ≠ dsKey pfx := by
  have h : ":latest".toList = ':' :: "latest".toList := by decide
  unfold dsLatestKey dsKey
  rw [h]
  exact append_cons_ne _ _ _

theorem dsAllKey_ne (pfx : Str) : dsAllKey pfx ≠ dsKey pfx := by
  have h : ":all".toList = ':' :: "all".toList := by decide
  unfold dsAllKey dsKey
  rw [h]
  exact append_cons_ne _ _ _

/-! ## Claim theorems -/

/-- C10: a key present and unexpired whose stored value is the Python
`None` makes `has` return false — `has` distinguishes values, not key
presence. -/
theorem c10_has_is_value_based {β : Type} (c : Cache (Option β)) (key : Str)
    (now : Nat) (texp : Option Nat)
    (hfind : findEntry c.store key = some (none, texp))
    (hunexp : ∀ e, texp = some e → ¬ now > e) :
    (c.hasKey key now).2 = false := by
  unfold Cache.hasKey Cache.get
  rw [hfind]
  cases texp with
  | none => simp
  | some e => simp [hunexp e rfl]

/-- Closed witness for the C10 theorem. -/
theorem c10_has_is_value_based_witness :
    ((⟨[("k".toList, (none : Option Nat), none)]⟩ : Cache (Option Nat)).hasKey
      "k".toList 1000).2 = false :=
  c10_has_is_value_based _ _ _ none (by decide) (by intro e he; cases he)

/-- C7: an entry set with no TTL is returned by `get` at every later
instant; an entry set with TTL `t` at `t0` is returned by `get` at any
instant `≤ t0 + t`, while a `get` at an instant `> t0 + t` returns the
supplied default, removes the entry, and makes a subsequent `has`
return false. -/
theorem c7_ttl_expiry {β : Type} (c : Cache (Option β)) (key : Str) (v : β)
    (t0 : Nat) :
    (∀ t1 d, ((c.set key (some v) none t0).get key d t1).2 = some v)
    ∧ (∀ t t1 d, t1 > t0 + t →
        ((c.set key (some v) (some t) t0).get key d t1).2 = d
        ∧ findEntry (((c.set key (some v) (some t) t0).get key d t1).1).store key = none
        ∧ ∀ t2, ((((c.set key (some v) (some t) t0).get key d t1).1).hasKey key t2).2 = false)
    ∧ (∀ t t1 d, t1 ≤ t0 + t →
        ((c.set key (some v) (some t) t0).get key d t1).2 = some v) := by
  refine ⟨fun t1 d => cache_get_set_self c key (some v) t0 t1 d, ?_, ?_⟩
  · intro t t1 d hgt
    have hfe : findEntry (((c.set key (some v) (some t) t0)).get key d t1).1.store
        key = none := by
      rw [cache_expired_store c key v t t0 t1 d hgt]
      exact findEntry_filter_self _ _
    refine ⟨?_, hfe, fun t2 => hasKey_of_findEntry_none _ _ _ hfe⟩
    rw [cache_get_set_self_ttl]
    simp [hgt]
  · intro t t1 d hle
    rw [cache_get_set_self_ttl]
    simp [Nat.not_lt.mpr hle]

/-- Closed witness for the C7 theorem: set at instant 100 with TTL 10;
read back at 110 (still there), at 111 (expired: default, removed, `has`
false), and a no-TTL entry read at a remote instant. -/
theorem c7_ttl_expiry_witness :
    (((⟨[]⟩ : Cache (Option Nat)).set "k".toList (some 3) none 100).get
        "k".toList none 999999).2 = some 3
    ∧ (((⟨[]⟩ : Cache (Option Nat)).set "k".toList (some 3) (some 10) 100).get
        "k".toList none 110).2 = some 3
    ∧ (((⟨[]⟩ : Cache (Option Nat)).set "k".toList (some 3) (some 10) 100).get
        "k".toList none 111).2 = none
    ∧ ((((⟨[]⟩ : Cache (Option Nat)).set "k".toList (some 3) (some 10) 100).get
        "k".toList none 111).1.hasKey "k".toList 112).2 = false := by
  refine ⟨(c7_ttl_expiry ⟨[]⟩ "k".toList 3 100).1 999999 none,
    (c7_ttl_expiry ⟨[]⟩ "k".toList 3 100).2.2 10 110 none (by decide),
    ((c7_ttl_expiry ⟨[]⟩ "k".toList 3 100).2.1 10 111 none (by decide)).1,
    ((c7_ttl_expiry ⟨[]⟩ "k".toList 3 100).2.1 10 111 none (by decide)).2.2 112⟩

/-- C9: a cached *empty* dataset under `load_data`'s key is falsy, so it
is treated as a cache miss — storage is consulted and the cache entry is
overwritten with the freshly loaded dataset. -/
theorem c9_empty_cached_is_miss (st : ClientState) (ds' : Dataset)
    (pfx : Str) (now t2 : Nat)
    (hcached : (st.cache.get (dsLatestKey pfx) none now).2 = some []) :
    (loadData st (.ok ds') pfx true now).2 = ds'
    ∧ (loadData st (.ok ds') pfx true now).1.cachedData = ds'
    ∧ ((loadData st (.ok ds') pfx true now).1.cache.get (dsLatestKey pfx)
        none t2).2 = some ds' := by
  rw [loadData_missEmpty st ds' pfx now hcached]
  exact ⟨rfl, rfl, cache_get_set_self _ _ _ _ _ _⟩

/-- Closed witness for the C9 theorem. -/
theorem c9_empty_cached_is_miss_witness :
    (loadData ⟨[], ⟨[(dsLatestKey "p".toList, some [], none)]⟩⟩
        (.ok [("t".toList, demoTbl)]) "p".toList true 7).2
      = [("t".toList, demoTbl)] :=
  (c9_empty_cached_is_miss _ _ _ 7 7 (by decide)).1

/-- C8: a successful `collect_and_store_dataset` writes exactly the cache
key `dataset:{prefix}`; the keys `dataset:{prefix}:latest` and
`dataset:{prefix}:all` read by `load_data` are untouched, so a
`load_data` after the save still returns a previously cached dataset. -/
theorem c8_save_does_not_refresh_load_key (st : ClientState)
    (collected : Dataset) (pfx : Str) (now : Nat)
    (sl : Except PyErr Dataset) (hcoll : collected ≠ []) :
    (collectAndStoreDataset st collected true pfx now).2 = true
    ∧ (∀ d t2, ((collectAndStoreDataset st collected true pfx now).1.cache.get
        (dsKey pfx) d t2).2 = some collected)
    ∧ (∀ k d t2, k ≠ dsKey pfx →
        ((collectAndStoreDataset st collected true pfx now).1.cache.get k d t2).2
          = (st.cache.get k d t2).2)
    ∧ (∀ d t2, ((collectAndStoreDataset st collected true pfx now).1.cache.get
        (dsLatestKey pfx) d t2).2 = (st.cache.get (dsLatestKey pfx) d t2).2)
    ∧ (∀ dprev t2, dprev ≠ [] →
        (st.cache.get (dsLatestKey pfx) none t2).2 = some dprev →
        (loadData (collectAndStoreDataset st collected true pfx now).1 sl
          pfx true t2).2 = dprev) := by
  have hne : collected.isEmpty = false := by
    cases collected with
    | nil => exact absurd rfl hcoll
    | cons a l => rfl
  have hcs : (collectAndStoreDataset st collected true pfx now).1
      = { st with cache := st.cache.set (dsKey pfx) (some collected) none now } := by
    unfold collectAndStoreDataset
    simp [hne]
  refine ⟨?_, ?_, ?_, ?_, ?_⟩
  · unfold collectAndStoreDataset
    simp [hne]
  · intro d t2
    rw [hcs]
    exact cache_get_set_self _ _ _ _ _ _
  · intro k d t2 hk
    rw [hcs]
    exact cache_get_set_ne _ hk _ _ _ _ _
  · intro d t2
    rw [hcs]
    exact cache_get_set_ne _ (dsLatestKey_ne pfx) _ _ _ _ _
  · intro dprev t2 hdprev hprev
    have hval : ((collectAndStoreDataset st collected true pfx now).1.cache.get
        (dsLatestKey pfx) none t2).2 = some dprev := by
      rw [hcs]
      rw [cache_get_set_ne _ (dsLatestKey_ne pfx)]
      exact hprev
    have hne2 : dprev.isEmpty = false := by
      cases dprev with
      | nil => exact absurd rfl hdprev
      | cons a l => rfl
    rw [loadData_hit _ sl pfx t2 dprev hval hne2]

/-- Closed witness for the C8 theorem: a dataset cached under the
latest-key survives a save of a different dataset and is still what
`load_data` returns. -/
theorem c8_save_does_not_refresh_load_key_witness :
    (loadData (collectAndStoreDataset
        ⟨[], ⟨[(dsLatestKey "p".toList, some [("old".toList, demoTbl)], none)]⟩⟩
        [("new".toList, demoTbl)] true "p".toList 50).1
      (.ok []) "p".toList true 60).2 = [("old".toList, demoTbl)] :=
  (c8_save_does_not_refresh_load_key _ _ _ 50 _ (by decide)).2.2.2.2
    [("old".toList, demoTbl)] 60 (by decide) (by decide)

/-- C6: every analysis dict that leaves `_analyze_query` has a non-empty
seasons list; when extraction yields no season (or the parse-failure
fallback fires) the list is exactly `[DEFAULT_SEASON]`. -/
theorem c6_seasons_never_empty (defaultSeason : String)
    (invokeResult : Except PyErr QueryAnalysisR) (d : AnalysisDict)
    (h : analyzeQuery defaultSeason invokeResult = .ok d) :
    d.seasons ≠ []
    ∧ (∀ qa, invokeResult = .ok qa → qa.seasons = [] →
        d.seasons = [defaultSeason])
    ∧ (invokeResult = .error .jsonDecodeError →
        d.seasons = [defaultSeason]) := by
  cases invokeResult with
  | ok qa =>
    simp only [analyzeQuery, Except.ok.injEq] at h
    subst h
    by_cases hs : qa.toDict.seasons.isEmpty
    · rw [if_pos hs]
      refine ⟨by simp, fun qa' hqa' hqs => by simp, fun hj => Except.noConfusion hj⟩
    · rw [if_neg hs]
      refine ⟨?_, ?_, fun hj => Except.noConfusion hj⟩
      · intro hnil
        apply hs
        rw [hnil]
        rfl
      · intro qa' hqa' hqs
        injection hqa' with h2
        subst h2
        exact absurd (show qa.toDict.seasons.isEmpty = true by
          simp [QueryAnalysisR.toDict, hqs]) hs
  | error e =>
    cases e with
    | jsonDecodeError =>
      simp only [analyzeQuery, Except.ok.injEq] at h
      subst h
      exact ⟨by simp [fallbackAnalysis], fun qa hqa => Except.noConfusion hqa,
        fun _ => rfl⟩
    | validationError => simp [analyzeQuery] at h
    | attributeError => simp [analyzeQuery] at h
    | typeError => simp [analyzeQuery] at h
    | otherError => simp [analyzeQuery] at h

/-- Closed witness for the C6 theorem: the parse-failure fallback carries
exactly the default season. -/
theorem c6_seasons_never_empty_witness :
    (fallbackAnalysis "2023-24").seasons ≠ []
    ∧ (fallbackAnalysis "2023-24").seasons = ["2023-24"] :=
  ⟨(c6_seasons_never_empty "2023-24" (.error .jsonDecodeError) _ rfl).1,
   (c6_seasons_never_empty "2023-24" (.error .jsonDecodeError) _ rfl).2.2 rfl⟩

/-- C1 counterexample: when the structured-output invoke fails schema
validation (an exception that is not `json.JSONDecodeError`), the
exception escapes `query` — the pipeline does not return a string. -/
theorem c1_validation_error_escapes :
    queryRun demoSettings ⟨[], ⟨[]⟩⟩
      ⟨.error .validationError, .ok [], .ok "answer"⟩ 0
      = .error .validationError := rfl

/-- C1 amended: `query` returns a string for every behaviour in which the
analysis stage either succeeds or raises exactly `json.JSONDecodeError`;
failures of the fetch and generation stages are always absorbed. -/
theorem c1_query_total_amended (settings : NBASettingsObj) (st : ClientState)
    (b : RunBehavior) (now : Nat)
    (h : b.analysisResult = .error .jsonDecodeError
      ∨ ∃ qa, b.analysisResult = .ok qa) :
    ∃ out, queryRun settings st b now = .ok out := by
  rcases h with h | ⟨qa, h⟩
  · have ha : analyzeQuery settings.DEFAULT_SEASON b.analysisResult
        = .ok (fallbackAnalysis settings.DEFAULT_SEASON) := by
      rw [h]
      rfl
    unfold queryRun
    rw [ha]
    exact ⟨_, rfl⟩
  · cases hres : analyzeQuery settings.DEFAULT_SEASON b.analysisResult with
    | ok a =>
      unfold queryRun
      rw [hres]
      exact ⟨_, rfl⟩
    | error e =>
      rw [h] at hres
      simp [analyzeQuery] at hres

/-- Closed witness for the amended C1 theorem. -/
theorem c1_query_total_amended_witness :
    ∃ out, queryRun demoSettings ⟨[], ⟨[]⟩⟩
      ⟨.error .jsonDecodeError, .ok [], .ok "x"⟩ 0 = .ok out :=
  c1_query_total_amended demoSettings ⟨[], ⟨[]⟩⟩
    ⟨.error .jsonDecodeError, .ok [], .ok "x"⟩ 0 (Or.inl rfl)

/-- C2: top-performers retrieval returns no data.  For entity "player"
the `get_top_players` stub returns the Python `None` (so the pipeline,
whose `len(data)` then raises `TypeError`, ends with an empty frame even
though the cached player table has rows for the requested season), and
for entity "team" the `nba_settings.TEAM_STATS_DF` access raises
`AttributeError` before any filtering or ranking happens. -/
theorem c2_top_performers_returns_nothing :
    (getTopPlayers demoState ["2023-24"] 2 "points" (some "per_game")).2
      = .ok none
    ∧ (fetchRelevantData demoSettings demoState (.ok []) topPerfAnalysis 0).2
      = emptyDF
    ∧ (getTopPerformers demoSettings demoState (.ok []) ["2023-24"] 2
        "points" "team" (some "per_game") 0).2 = .error .attributeError
    ∧ demoTbl.rows ≠ [] := by
  refine ⟨rfl, by decide, rfl, by decide⟩

/-- C3: the resolver disagrees with the rest of the code base about the
totals suffix.  The analyzer's declared vocabulary uses "totals" and the
collector writes columns ending in "_TOTALS", but the resolver treats
"totals" as unrecognized (yielding the per-game column) and only maps
the never-produced value "total" to the suffix "_TOTAL", which matches
no collected column.  The case-insensitivity and suffix-exemption parts
of the claim hold. -/
theorem c3_totals_resolution_mismatch :
    resolveStatColumn "points" (some "totals") = "PTS_PER_GAME"
    ∧ resolveStatColumn "points" (some "total") = "PTS_TOTAL"
    ∧ "totals" ∈ statsTypeVocab
    ∧ "PTS" ++ collectorTotalsSuffix = "PTS_TOTALS"
    ∧ ("PTS_TOTAL" : String) ≠ "PTS_TOTALS"
    ∧ resolveStatColumn "Points" (some "per_game") = "PTS_PER_GAME"
    ∧ resolveStatColumn "points" (some "per_game") = "PTS_PER_GAME"
    ∧ resolveStatColumn "win percentage" (some "totals") = "W_PCT" := by
  refine ⟨?_, ?_, ?_, ?_, ?_, ?_, ?_, ?_⟩ <;> decide

/-- C5: player/team stats retrieval never reaches its filter.  The
`nba_settings.PLAYER_STATS_DF` access raises `AttributeError`, so the
pipeline returns an empty frame even though the cached player table
contains a row matching the requested player (case-insensitively) and
season — the row the claim says must be returned. -/
theorem c5_player_filter_unreachable :
    (getPlayerStats demoSettings demoState (.ok []) ["a"] ["2023-24"] 0).2
      = .error .attributeError
    ∧ (fetchRelevantData demoSettings demoState (.ok []) playerStatsAnalysis 0).2
      = emptyDF
    ∧ (demoTbl.rows.filter demoPlayerPred).length = 1 := by
  refine ⟨rfl, by decide, by decide⟩

theorem mem_writeFile_elim {f : FSFile} {fs : FS} {d n : Str}
    {c : DataFrame} {m : Nat} (h : f ∈ writeFile fs d n c m) :
    f ∈ fs ∨ f = ⟨d, n, c, m⟩ := by
  unfold writeFile at h
  rcases List.mem_append.mp h with h | h
  · exact Or.inl (List.mem_of_mem_filter h)
  · exact Or.inr (List.mem_singleton.mp h)

theorem writeFile_mem_self (fs : FS) (d n : Str) (c : DataFrame) (m : Nat) :
    (⟨d, n, c, m⟩ : FSFile) ∈ writeFile fs d n c m := by
  unfold writeFile
  exact List.mem_append_right _ (List.mem_singleton.mpr rfl)

theorem mem_writeFile_of_ne {f : FSFile} {fs : FS} {d n : Str}
    {c : DataFrame} {m : Nat} (hf : f ∈ fs) (hn : f.name ≠ n) :
    f ∈ writeFile fs d n c m := by
  unfold writeFile
  refine List.mem_append_left _ (List.mem_filter.mpr ⟨hf, ?_⟩)
  simp [hn]

theorem saveFiles_mem_elim {dir ts : Str} {now : Nat} :
    ∀ {ds : Dataset} {fs : FS} {f : FSFile},
    f ∈ saveFiles dir ts now ds fs →
    f ∈ fs ∨ ∃ nm df, (nm, df) ∈ ds ∧ df.isEmptyDF = false
      ∧ f.dir = dir ∧ f.mtime = now ∧ f.content = df
      ∧ (f.name = csvName nm ts ∨ f.name = jsonName nm ts) := by
  intro ds
  induction ds with
  | nil => intro fs f h; exact Or.inl h
  | cons hd rest ih =>
    intro fs f h
    rcases hd with ⟨nm, df⟩
    by_cases he : df.isEmptyDF
    · rw [show saveFiles dir ts now ((nm, df) :: rest) fs
          = saveFiles dir ts now rest fs by simp [saveFiles, he]] at h
      rcases ih h with h | ⟨nm', df', hm, hrest⟩
      · exact Or.inl h
      · exact Or.inr ⟨nm', df', List.mem_cons_of_mem _ hm, hrest⟩
    · rw [show saveFiles dir ts now ((nm, df) :: rest) fs
          = saveFiles dir ts now rest
              (writeFile (writeFile fs dir (csvName nm ts) df now) dir
                (jsonName nm ts) df now) by simp [saveFiles, he]] at h
      rcases ih h with h | ⟨nm', df', hm, hrest⟩
      · rcases mem_writeFile_elim h with h | h
        · rcases mem_writeFile_elim h with h | h
          · exact Or.inl h
          · subst h
            exact Or.inr ⟨nm, df, List.mem_cons_self _ _,
              Bool.eq_false_iff.mpr he, rfl, rfl, rfl, Or.inl rfl⟩
        · subst h
          exact Or.inr ⟨nm, df, List.mem_cons_self _ _,
            Bool.eq_false_iff.mpr he, rfl, rfl, rfl, Or.inr rfl⟩
      · exact Or.inr ⟨nm', df', List.mem_cons_of_mem _ hm, hrest⟩

theorem saveFiles_mem_keep {dir ts : Str} {now : Nat} :
    ∀ {ds : Dataset} {fs : FS} {f : FSFile}, f ∈ fs →
    (∀ pr ∈ ds, f.name ≠ csvName pr.1 ts ∧ f.name ≠ jsonName pr.1 ts) →
    f ∈ saveFiles dir ts now ds fs := by
  intro ds
  induction ds with
  | nil => intro fs f h _; exact h
  | cons hd rest ih =>
    intro fs f h hnw
    rcases hd with ⟨nm, df⟩
    by_cases he : df.isEmptyDF
    · rw [show saveFiles dir ts now ((nm, df) :: rest) fs
          = saveFiles dir ts now rest fs by simp [saveFiles, he]]
      exact ih h (fun pr hpr => hnw pr (List.mem_cons_of_mem _ hpr))
    · rw [show saveFiles dir ts now ((nm, df) :: rest) fs
          = saveFiles dir ts now rest
              (writeFile (writeFile fs dir (csvName nm ts) df now) dir
                (jsonName nm ts) df now) by simp [saveFiles, he]]
      have hhd := hnw (nm, df) (List.mem_cons_self _ _)
      exact ih
        (mem_writeFile_of_ne (mem_writeFile_of_ne h hhd.1) hhd.2)
        (fun pr hpr => hnw pr (List.mem_cons_of_mem _ hpr))

theorem csvName_inj {a b ts : Str} (h : csvName a ts = csvName b ts) : a = b := by
  unfold csvName at h
  exact List.append_cancel_right h

theorem csvName_ne_jsonName (a b tsa tsb : Str) : csvName a tsa ≠ jsonName b tsb := by
  intro h
  have h2 := congrArg (fun l => l.reverse.head?) h
  simp [csvName, jsonName, csvExt, jsonExt, List.reverse_append] at h2

theorem endsWithCsv_csvName (a ts : Str) : endsWithCsv (csvName a ts) = true := by
  simp [endsWithCsv, csvName, csvExt, List.reverse_append]

theorem endsWithCsv_jsonName (a ts : Str) : endsWithCsv (jsonName a ts) = false := by
  simp [endsWithCsv, jsonName, jsonExt, List.reverse_append]

theorem eq_of_mem_nodup_keys : ∀ {l : List (Str × DataFrame)},
    (l.map Prod.fst).Nodup → ∀ {k : Str} {v1 v2 : DataFrame},
    (k, v1) ∈ l → (k, v2) ∈ l → v1 = v2 := by
  intro l
  induction l with
  | nil => intro _ k v1 v2 h1; cases h1
  | cons hd rest ih =>
    intro hn k v1 v2 h1 h2
    rw [List.map_cons, List.nodup_cons] at hn
    rcases List.mem_cons.mp h1 with h1 | h1 <;>
      rcases List.mem_cons.mp h2 with h2 | h2
    · rw [← h1] at h2; exact (Prod.mk.injEq _ _ _ _ ▸ h2).2.symm
    · exfalso
      apply hn.1
      rw [← h1]
      exact List.mem_map.mpr ⟨(k, v2), h2, rfl⟩
    · exfalso
      apply hn.1
      rw [← h2]
      exact List.mem_map.mpr ⟨(k, v1), h1, rfl⟩
    · exact ih hn.2 h1 h2

theorem mem_dedupFirstAux : ∀ {l seen : List Str} {a : Str},
    a ∈ dedupFirstAux seen l ↔ (a ∈ l ∧ a ∉ seen) := by
  intro l
  induction l with
  | nil => simp [dedupFirstAux]
  | cons x xs ih =>
    intro seen a
    by_cases hx : x ∈ seen
    · rw [show dedupFirstAux seen (x :: xs) = dedupFirstAux seen xs by
        simp [dedupFirstAux, hx]]
      rw [ih]
      constructor
      · exact fun h => ⟨List.mem_cons_of_mem _ h.1, h.2⟩
      · rintro ⟨h1, h2⟩
        rcases List.mem_cons.mp h1 with rfl | h1
        · exact absurd hx h2
        · exact ⟨h1, h2⟩
    · rw [show dedupFirstAux seen (x :: xs) = x :: dedupFirstAux (x :: seen) xs by
        simp [dedupFirstAux, hx]]
      constructor
      · intro h
        rcases List.mem_cons.mp h with rfl | h
        · exact ⟨List.mem_cons_self _ _, hx⟩
        · have h3 := ih.mp h
          exact ⟨List.mem_cons_of_mem _ h3.1,
            fun hs => h3.2 (List.mem_cons_of_mem _ hs)⟩
      · rintro ⟨h1, h2⟩
        rcases List.mem_cons.mp h1 with rfl | h1
        · exact List.mem_cons_self _ _
        · by_cases hax : a = x
          · subst hax
            exact List.mem_cons_self _ _
          · refine List.mem_cons_of_mem _ (ih.mpr ⟨h1, ?_⟩)
            intro hs
            rcases List.mem_cons.mp hs with hs | hs
            · exact hax hs
            · exact h2 hs

theorem mem_dedupFirst {l : List Str} {a : Str} :
    a ∈ dedupFirst l ↔ a ∈ l := by
  rw [dedupFirst, mem_dedupFirstAux]
  simp

theorem lookupDF_map_eval {g : Str → DataFrame} :
    ∀ {names : List Str} {nm : Str}, nm ∈ names →
    lookupDF (names.map (fun x => (x, g x))) nm = some (g nm) := by
  intro names
  induction names with
  | nil => intro nm h; cases h
  | cons x xs ih =>
    intro nm h
    by_cases hx : x = nm
    · subst hx
      simp [lookupDF, List.find?_cons]
    · have hb : (x == nm) = false := by simp [hx]
      rcases List.mem_cons.mp h with h | h
      · exact absurd h.symm hx
      · simpa [lookupDF, List.find?_cons, hb] using ih h

theorem pickLatest_eq {x : FSFile} : ∀ {rest : List FSFile} {f : FSFile},
    x ∈ f :: rest → (∀ y ∈ f :: rest, y.mtime < x.mtime ∨ y = x) →
    pickLatest f rest = x := by
  intro rest
  induction rest with
  | nil =>
    intro f hx _
    simp only [List.mem_cons, List.not_mem_nil, or_false] at hx
    simp [pickLatest, hx]
  | cons g rest ih =>
    intro f hx hdom
    have hstep : pickLatest f (g :: rest)
        = pickLatest (if g.mtime > f.mtime then g else f) rest := rfl
    rw [hstep]
    have hfin : (if g.mtime > f.mtime then g else f) ∈ f :: g :: rest := by
      by_cases hc : g.mtime > f.mtime <;> simp [hc]
    apply ih
    · rcases List.mem_cons.mp hx with hxf | hx2
      · by_cases hc : g.mtime > f.mtime
        · rcases hdom g (by simp) with hlt | hgx
          · exfalso
            rw [hxf] at hlt
            omega
          · rw [if_pos hc]
            exact List.mem_cons.mpr (Or.inl hgx.symm)
        · rw [if_neg hc]
          exact List.mem_cons.mpr (Or.inl hxf)
      · rcases List.mem_cons.mp hx2 with hxg | hx3
        · by_cases hc : g.mtime > f.mtime
          · rw [if_pos hc]
            exact List.mem_cons.mpr (Or.inl hxg)
          · rcases hdom f (by simp) with hlt | hfx
            · exfalso
              rw [hxg] at hlt
              omega
            · rw [if_neg hc]
              exact List.mem_cons.mpr (Or.inl hfx.symm)
        · exact List.mem_cons_of_mem _ hx3
    · intro y hy
      rcases List.mem_cons.mp hy with hy | hy
      · subst hy
        exact hdom _ hfin
      · exact hdom y (List.mem_cons_of_mem _ (List.mem_cons_of_mem _ hy))

theorem saveFiles_csv_mem {dir ts : Str} {now : Nat} :
    ∀ {ds : Dataset} {fs : FS} {nm : Str} {df : DataFrame},
    (nm, df) ∈ ds → df.isEmptyDF = false → (ds.map Prod.fst).Nodup →
    (⟨dir, csvName nm ts, df, now⟩ : FSFile) ∈ saveFiles dir ts now ds fs := by
  intro ds
  induction ds with
  | nil => intro fs nm df h; cases h
  | cons hd rest ih =>
    intro fs nm df hmem hne hnodup
    rcases hd with ⟨nm0, df0⟩
    rw [List.map_cons, List.nodup_cons] at hnodup
    rcases List.mem_cons.mp hmem with heq | hmem'
    · injection heq with h1 h2
      subst h1
      subst h2
      rw [show saveFiles dir ts now ((nm, df) :: rest) fs
          = saveFiles dir ts now rest
              (writeFile (writeFile fs dir (csvName nm ts) df now) dir
                (jsonName nm ts) df now) by simp [saveFiles, hne]]
      apply saveFiles_mem_keep
      · exact mem_writeFile_of_ne (writeFile_mem_self fs dir (csvName nm ts) df now)
          (csvName_ne_jsonName nm nm ts ts)
      · intro pr hpr
        constructor
        · intro hcc
          exact hnodup.1 ((csvName_inj hcc) ▸ List.mem_map.mpr ⟨pr, hpr, rfl⟩)
        · exact csvName_ne_jsonName nm pr.1 ts ts
    · by_cases he0 : df0.isEmptyDF
      · rw [show saveFiles dir ts now ((nm0, df0) :: rest) fs
            = saveFiles dir ts now rest fs by simp [saveFiles, he0]]
        exact ih hmem' hne hnodup.2
      · rw [show saveFiles dir ts now ((nm0, df0) :: rest) fs
            = saveFiles dir ts now rest
                (writeFile (writeFile fs dir (csvName nm0 ts) df0 now) dir
                  (jsonName nm0 ts) df0 now) by simp [saveFiles, he0]]
        exact ih hmem' hne hnodup.2

/-- C4 amended: saving then loading with `latest_only=true` returns each
non-empty table's frame *under the name the load heuristic infers from
the file name* — exactly the saved name whenever it survives the
replace-and-split inference (e.g. it contains no underscore and no
".csv") and no other saved table's artifact is inferred to the same
name, provided every pre-existing file of the directory is older than
this save. -/
theorem c4_roundtrip_amended (fs : FS) (ds : Dataset) (pfx ts : Str)
    (now : Nat) (nm : Str) (df : DataFrame)
    (hmem : (nm, df) ∈ ds)
    (hne : df.isEmptyDF = false)
    (hnodup : (ds.map Prod.fst).Nodup)
    (hinf : inferredName (csvName nm ts) = nm)
    (hothers : ∀ pr ∈ ds, pr.1 ≠ nm → inferredName (csvName pr.1 ts) ≠ nm)
    (hold : ∀ f ∈ fs, f.dir = dirOf pfx → f.mtime < now) :
    lookupDF (loadLocal (saveLocal fs ds pfx ts now).1 pfx true) nm
      = some df := by
  have hsl : (saveLocal fs ds pfx ts now).1
      = saveFiles (dirOf pfx) ts now ds fs := rfl
  rw [hsl]
  unfold loadLocal
  have hXmem : (⟨dirOf pfx, csvName nm ts, df, now⟩ : FSFile)
      ∈ saveFiles (dirOf pfx) ts now ds fs := saveFiles_csv_mem hmem hne hnodup
  have hXcsv : (⟨dirOf pfx, csvName nm ts, df, now⟩ : FSFile)
      ∈ (saveFiles (dirOf pfx) ts now ds fs).filter
          (fun f => f.dir == dirOf pfx && endsWithCsv f.name) :=
    List.mem_filter.mpr ⟨hXmem, by simp [endsWithCsv_csvName]⟩
  have hnames : nm ∈ dedupFirst (((saveFiles (dirOf pfx) ts now ds fs).filter
      (fun f => f.dir == dirOf pfx && endsWithCsv f.name)).map
        (fun f => inferredName f.name)) := by
    rw [mem_dedupFirst]
    exact List.mem_map.mpr ⟨_, hXcsv, hinf⟩
  have hXgrp : (⟨dirOf pfx, csvName nm ts, df, now⟩ : FSFile)
      ∈ ((saveFiles (dirOf pfx) ts now ds fs).filter
          (fun f => f.dir == dirOf pfx && endsWithCsv f.name)).filter
            (fun f => inferredName f.name == nm) :=
    List.mem_filter.mpr ⟨hXcsv, by simp [hinf]⟩
  have hdom : ∀ y ∈ ((saveFiles (dirOf pfx) ts now ds fs).filter
      (fun f => f.dir == dirOf pfx && endsWithCsv f.name)).filter
        (fun f => inferredName f.name == nm),
      y.mtime < (⟨dirOf pfx, csvName nm ts, df, now⟩ : FSFile).mtime
        ∨ y = (⟨dirOf pfx, csvName nm ts, df, now⟩ : FSFile) := by
    intro y hy
    have hycsv := List.mem_of_mem_filter hy
    have hyinf : inferredName y.name = nm := by
      have h2 := (List.mem_filter.mp hy).2
      simpa using h2
    have hyfs : y ∈ saveFiles (dirOf pfx) ts now ds fs :=
      List.mem_of_mem_filter hycsv
    have hycond := (List.mem_filter.mp hycsv).2
    have hydir : y.dir = dirOf pfx := by
      simp only [Bool.and_eq_true, beq_iff_eq] at hycond
      exact hycond.1
    have hyends : endsWithCsv y.name = true := by
      simp only [Bool.and_eq_true, beq_iff_eq] at hycond
      exact hycond.2
    rcases saveFiles_mem_elim hyfs with hyold | ⟨nm2, df2, hm2, hne2, hd2, hmt2, hc2, hn2⟩
    · left
      exact hold y hyold hydir
    · rcases hn2 with hn2 | hn2
      · have hnm2 : nm2 = nm := by
          by_contra hx2
          exact hothers (nm2, df2) hm2 hx2 (by rw [← hn2]; exact hyinf)
        subst hnm2
        have hdf2 : df2 = df := eq_of_mem_nodup_keys hnodup hm2 hmem
        subst hdf2
        right
        rcases y with ⟨yd, yn, yc, ym⟩
        simp only at hd2 hmt2 hc2 hn2
        rw [hd2, hmt2, hc2, hn2]
      · rw [hn2, endsWithCsv_jsonName] at hyends
        cases hyends
  rw [lookupDF_map_eval hnames]
  rcases hg : ((saveFiles (dirOf pfx) ts now ds fs).filter
      (fun f => f.dir == dirOf pfx && endsWithCsv f.name)).filter
        (fun f => inferredName f.name == nm) with _ | ⟨g0, gs⟩
  · rw [hg] at hXgrp
    cases hXgrp
  · rw [hg] at hXgrp hdom
    rw [hg]
    have hpick : pickLatest g0 gs = ⟨dirOf pfx, csvName nm ts, df, now⟩ :=
      pickLatest_eq hXgrp hdom
    rw [show chooseSnapshot true (g0 :: gs) = (pickLatest g0 gs).content from rfl,
      hpick]

/-- C4 counterexample: a table saved as "player_stats" is not returned
under the name "player_stats" — the load-time name inference truncates
at the first underscore, so the round trip yields it as "player". -/
theorem c4_underscore_name_counterexample :
    lookupDF (loadLocal (saveLocal [] [("player_stats".toList, demoTbl)]
        "nba-data".toList "20240101_120000".toList 5).1 "nba-data".toList true)
      ("player_stats".toList) = none
    ∧ lookupDF (loadLocal (saveLocal [] [("player_stats".toList, demoTbl)]
        "nba-data".toList "20240101_120000".toList 5).1 "nba-data".toList true)
      ("player".toList) = some demoTbl := by
  refine ⟨by decide, by decide⟩

/-- Closed witness for the amended C4 theorem. -/
theorem c4_roundtrip_amended_witness :
    lookupDF (loadLocal (saveLocal [] [("players".toList, demoTbl)]
        "nba-data".toList "20240101_120000".toList 5).1 "nba-data".toList true)
      ("players".toList) = some demoTbl :=
  c4_roundtrip_amended [] [("players".toList, demoTbl)] "nba-data".toList
    "20240101_120000".toList 5 "players".toList demoTbl
    (by decide) (by decide) (by decide) (by decide) (by decide) (by decide)

end NBAApp
